import Mathlib

/-!
Verification of the YOLO v3 batch-detection script `ehualu_yolo.py`
(keras-yolo3).  The script's pure logic is embedded shallowly:

* `_get_class` / `_get_anchors` — the Config Loader (`YOLO._get_class`,
  `YOLO._get_anchors`);
* `generate` — the Model Provider (`YOLO.generate`; the Keras
  `load_model` call is external IO and is abstracted by a boolean
  `load_model_succeeds`, the direct-load structural shape check involves
  the opaque Keras model object and is likewise outside the embedding);
* `detect_preprocess` — the input-size logic of `YOLO.detect_image`
  (letterboxing itself is an external collaborator);
* `npRound`, `clampBox`, `encodeDetection`, `convert_result_to_str` —
  the Result Encoder (`YOLO.convert_result_to_str`; `np.round` is IEEE
  round-half-to-even, modelled exactly on `ℚ`);
* `detect_loop` / `detect_img` — the Batch Runner (`detect_img`; opening
  a file and running the detector are external IO, so each directory
  entry records how those calls would behave: `Entry.corrupt` for a file
  on which `Image.open` raises, `Entry.image name r` for a file that
  opens and whose `detect_image` call returns `r`).

Python string primitives used by the script (`str.strip`, `str.split`,
`file.readlines`, `float(...)`) are modelled character-by-character so
that everything evaluates by `decide`.
-/

namespace EhualuYolo

/-- Python `str.strip()` on a character list: drop leading and trailing
whitespace. -/
def stripChars (cs : List Char) : List Char :=
  ((cs.dropWhile Char.isWhitespace).reverse.dropWhile Char.isWhitespace).reverse

/-- Python `str.strip()` on a string. -/
def pyStrip (s : String) : String :=
  String.mk (stripChars s.data)

/-- Python `str.split(',')` on a character list: split at every comma,
keeping empty pieces. -/
def splitCommaChars : List Char → List (List Char)
  | [] => [[]]
  | ',' :: rest => [] :: splitCommaChars rest
  | c :: rest =>
    match splitCommaChars rest with
    | [] => [[c]]
    | t :: ts => (c :: t) :: ts

/-- Python `str.split(',')` on a string. -/
def pySplitComma (s : String) : List String :=
  (splitCommaChars s.data).map String.mk

/-- Python `file.readlines()` on a character list: cut after every
newline, keeping the terminator; a final piece with no terminator is
kept only when non-empty. -/
def readlinesChars : List Char → List (List Char)
  | [] => []
  | '\n' :: rest => ['\n'] :: readlinesChars rest
  | c :: rest =>
    match readlinesChars rest with
    | [] => [[c]]
    | l :: ls => (c :: l) :: ls

/-- Python `file.readlines()` applied to the whole file content. -/
def readlines (s : String) : List String :=
  (readlinesChars s.data).map String.mk

/-- `YOLO._get_class`, applied to the content of the classes file:
`class_names = f.readlines()` followed by
`class_names = [c.strip() for c in class_names]`.  Every line yields an
entry, whether or not the stripped line is empty. -/
def _get_class (content : String) : List String :=
  (readlines content).map (fun c => pyStrip c)

/-- Value of a digit string, most significant digit first. -/
def digitsVal (cs : List Char) : ℕ :=
  cs.foldl (fun a c => 10 * a + (c.toNat - 48)) 0

/-- Exponent part of a Python float literal: optional sign followed by
digits; the mantissa is `mantNum / 10 ^ fracLen`. -/
def applyExponent (mantNum : ℤ) (fracLen : ℕ) (cs : List Char) : Option ℚ :=
  let signRest : Bool × List Char :=
    match cs with
    | '-' :: rest => (true, rest)
    | '+' :: rest => (false, rest)
    | _ => (false, cs)
  let ds := signRest.2.takeWhile Char.isDigit
  let rest := signRest.2.dropWhile Char.isDigit
  if ds.isEmpty || !rest.isEmpty then none
  else if signRest.1 then some (mkRat mantNum (10 ^ fracLen * 10 ^ digitsVal ds))
  else some (mkRat (mantNum * 10 ^ digitsVal ds) (10 ^ fracLen))

/-- Python `float(x)` on a decimal literal: surrounding whitespace,
optional sign, digits with an optional fractional part, optional
exponent.  The value is produced exactly, as a rational.  (`inf`, `nan`
and underscore separators are not modelled; the anchors files the
script reads contain plain decimal literals.) -/
def pyFloat? (s : String) : Option ℚ :=
  let cs0 := stripChars s.data
  let signRest : Bool × List Char :=
    match cs0 with
    | '-' :: rest => (true, rest)
    | '+' :: rest => (false, rest)
    | _ => (false, cs0)
  let intDs := signRest.2.takeWhile Char.isDigit
  let cs2 := signRest.2.dropWhile Char.isDigit
  let fracRest : List Char × List Char :=
    match cs2 with
    | '.' :: rest => (rest.takeWhile Char.isDigit, rest.dropWhile Char.isDigit)
    | _ => ([], cs2)
  if intDs.isEmpty && fracRest.1.isEmpty then none
  else
    let mantNum : ℤ :=
      (if signRest.1 then -1 else 1) *
        ((digitsVal intDs * 10 ^ fracRest.1.length + digitsVal fracRest.1 : ℕ) : ℤ)
    match fracRest.2 with
    | [] => some (mkRat mantNum (10 ^ fracRest.1.length))
    | 'e' :: rest => applyExponent mantNum fracRest.1.length rest
    | 'E' :: rest => applyExponent mantNum fracRest.1.length rest
    | _ => none

/-- `[float(x) for x in anchors.split(',')]`: the comprehension
propagates the first `ValueError` (here: `none`). -/
def parseAll : List String → Option (List ℚ)
  | [] => some []
  | t :: rest =>
    match pyFloat? t, parseAll rest with
    | some v, some vs => some (v :: vs)
    | _, _ => none

/-- `np.array(anchors).reshape(-1, 2)`: consecutive pairs, failing
(`ValueError`) when the count is odd. -/
def reshapePairs : List ℚ → Option (List (ℚ × ℚ))
  | [] => some []
  | [_] => none
  | a :: b :: rest => (reshapePairs rest).map (fun ps => (a, b) :: ps)

/-- `YOLO._get_anchors`, applied to the first line of the anchors file
(the string returned by `f.readline()`). -/
def _get_anchors (line : String) : Option (List (ℚ × ℚ)) :=
  match parseAll (pySplitComma line) with
  | none => none
  | some vals => reshapePairs vals

/-- Python `str.endswith(suffix)`. -/
def pyEndsWith (s suffix : String) : Bool :=
  suffix.data.isSuffixOf s.data

/-- Outcome of `YOLO.generate`'s model acquisition: either the direct
`load_model` succeeded (an opaque Keras model), or the fallback
reconstructed an architecture (`tiny_yolo_body` with
`num_anchors // 2` anchors per head, or `yolo_body` with
`num_anchors // 3`) and loaded raw weights into it. -/
inductive YoloModel where
  | direct
  | tiny (anchorsPerHead numClasses : ℕ)
  | full (anchorsPerHead numClasses : ℕ)
deriving DecidableEq

/-- `YOLO.generate`: `assert model_path.endswith('.h5')`, then try
`load_model`; on failure fall back by anchor count
(`is_tiny_version = num_anchors==6`).  `load_model` is external IO,
abstracted by `load_model_succeeds`; `os.path.expanduser` is modelled
as the identity (no leading `~` component), and the direct-load path's
output-shape assertion concerns the opaque Keras model and is outside
the embedding. -/
def generate (model_path : String) (load_model_succeeds : Bool)
    (num_anchors num_classes : ℕ) : Except String YoloModel :=
  if pyEndsWith model_path ".h5" then
    if load_model_succeeds then Except.ok YoloModel.direct
    else if num_anchors = 6 then
      Except.ok (YoloModel.tiny (num_anchors / 2) num_classes)
    else
      Except.ok (YoloModel.full (num_anchors / 3) num_classes)
  else Except.error "Keras model or weights must be a .h5 file."

/-- Input-size logic of `YOLO.detect_image`: with a fixed
`model_image_size` (stored `(h, w)`), both dimensions are asserted to
be multiples of 32 and the letterbox target is
`tuple(reversed(model_image_size))`, i.e. `(w, h)`; with no fixed size,
the target is `(width - width % 32, height - height % 32)`. -/
def detect_preprocess (model_image_size : Option (ℕ × ℕ))
    (image_w image_h : ℕ) : Except String (ℕ × ℕ) :=
  match model_image_size with
  | some (h, w) =>
    if h % 32 = 0 then
      if w % 32 = 0 then Except.ok (w, h)
      else Except.error "Multiples of 32 required"
    else Except.error "Multiples of 32 required"
  | none => Except.ok (image_w - image_w % 32, image_h - image_h % 32)

/-- A raw detection box, `top, left, bottom, right = box`, in pixel
coordinates of the original image (the script's float values modelled
exactly as rationals). -/
structure Box where
  top : ℚ
  left : ℚ
  bottom : ℚ
  right : ℚ

/-- One detection as produced by the Detector: parallel entries of
`out_boxes`, `out_scores`, `out_classes` at one index. -/
structure Detection where
  box : Box
  score : ℚ
  classId : ℕ

/-- `np.round` rounds half to even.  For `x` with reduced numerator and
denominator, `r2 = 2 * den * fract x`, so `r2 < den` means
`fract x < 1/2`, `den < r2` means `fract x > 1/2`, and the remaining
case is an exact half, resolved towards the even integer. -/
def npRound (x : ℚ) : ℤ :=
  let f := x.floor
  let r2 : ℤ := 2 * (x.num - f * (x.den : ℤ))
  if r2 < (x.den : ℤ) then f
  else if (x.den : ℤ) < r2 then f + 1
  else if f % 2 = 0 then f else f + 1

/-- The clamping block of `YOLO.convert_result_to_str`:
`top = max(0, np.round(top))`, `left = max(0, np.round(left))`,
`bottom = min(image.size[1], np.round(bottom))`,
`right = min(image.size[0], np.round(right))`, where
`image.size = (w, h)`. -/
def clampBox (box : Box) (w h : ℤ) : ℤ × ℤ × ℤ × ℤ :=
  (max 0 (npRound box.top), max 0 (npRound box.left),
   min h (npRound box.bottom), min w (npRound box.right))

/-- The per-detection string of `YOLO.convert_result_to_str`:
`'_'.join([str(left), str(top), str(width), str(height)])` with
`width = right - left`, `height = bottom - top` computed from the
clamped coordinates. -/
def encodeDetection (box : Box) (w h : ℤ) : String :=
  match clampBox box w h with
  | (top, left, bottom, right) =>
    String.intercalate "_"
      [toString left, toString top, toString (right - left), toString (bottom - top)]

/-- One iteration of the loop in `YOLO.convert_result_to_str`:
`out_str += '_'.join(...)` then `if i > 0: out_str += ';'`. -/
def encodeStep (w h : ℤ) (out_str : String) (x : ℕ × Detection) : String :=
  let out_str2 := out_str ++ encodeDetection x.2.box w h
  if x.1 > 0 then out_str2 ++ ";" else out_str2

/-- `YOLO.convert_result_to_str`: iterate
`for i, c in reversed(list(enumerate(classes)))` over the parallel
detection arrays, starting from the empty string.  (`c` and the score
are bound in the source loop but never used in the output.) -/
def convert_result_to_str (dets : List Detection) (w h : ℤ) : String :=
  ((dets.enum).reverse).foldl (encodeStep w h) ""

/-- Joining a list of strings with a separator, no leading or trailing
separator — the shape claimed for the encoder output. -/
def joinSep (sep : String) : List String → String
  | [] => ""
  | [a] => a
  | a :: b :: rest => a ++ sep ++ joinSep sep (b :: rest)

/-- One directory entry as seen by the loop in `detect_img`, recording
how the external calls behave on it: a subdirectory
(`os.path.isdir`), a file on which `Image.open` raises, or a file that
opens as an image together with the outcome of
`yolo.detect_image` on it (`Except.error` when the call raises). -/
inductive Entry where
  | dir (name : String)
  | corrupt (name : String)
  | image (name : String) (detectResult : Except String String)

/-- `os.path.join(img_root, filename)` for a relative filename. -/
def path_join (root name : String) : String :=
  if root = "" then name
  else if pyEndsWith root "/" then root ++ name
  else root ++ "/" ++ name

/-- Observable outcome of one `detect_img` run: the accumulated
`names`/`boxes_str` pairs, the open-error messages printed, the
uncaught exception (if any), and whether the CSV write and
`yolo.close_session()` were reached. -/
structure RunResult where
  table : List (String × String)
  log : List String
  aborted : Option String
  csvWritten : Bool
  sessionClosed : Bool
deriving DecidableEq

/-- The `for` loop of `detect_img`: subdirectories are skipped; an
`Image.open` failure prints `'Open Error! Try again! %s' % path` and
continues; a successful open runs `detect_image`, whose failure is not
caught and stops the loop, and whose success appends
`(filename, out_str)`.  Returns the accumulated rows, the printed
open-error messages, and the uncaught exception if one occurred. -/
def detect_loop (img_root : String) :
    List Entry → List (String × String) → List String →
    List (String × String) × List String × Option String
  | [], acc, log => (acc, log, none)
  | Entry.dir _ :: rest, acc, log => detect_loop img_root rest acc log
  | Entry.corrupt name :: rest, acc, log =>
    detect_loop img_root rest acc
      (log ++ ["Open Error! Try again! " ++ path_join img_root name])
  | Entry.image _ (Except.error msg) :: _, acc, log => (acc, log, some msg)
  | Entry.image name (Except.ok out_str) :: rest, acc, log =>
    detect_loop img_root rest (acc ++ [(name, out_str)]) log

/-- `detect_img`: run the loop over the directory listing; only when it
finishes without an uncaught exception are `summit.csv` written and
`yolo.close_session()` called. -/
def detect_img (img_root : String) (entries : List Entry) : RunResult :=
  let r := detect_loop img_root entries [] []
  match r.2.2 with
  | some msg =>
    { table := r.1, log := r.2.1, aborted := some msg,
      csvWritten := false, sessionClosed := false }
  | none =>
    { table := r.1, log := r.2.1, aborted := none,
      csvWritten := true, sessionClosed := true }

/-! ### Result Encoder lemmas -/

theorem encodeStep_acc (w h : ℤ) (a : String) (x : ℕ × Detection) :
    encodeStep w h a x = a ++ encodeStep w h "" x := by
  simp only [encodeStep, String.empty_append]
  split
  · rw [String.append_assoc]
  · rfl

theorem foldl_encodeStep (w h : ℤ) (l : List (ℕ × Detection)) (a : String) :
    l.foldl (encodeStep w h) a = a ++ l.foldl (encodeStep w h) "" := by
  induction l generalizing a with
  | nil => simp [String.append_empty]
  | cons x xs ih =>
    simp only [List.foldl_cons]
    rw [ih (encodeStep w h a x), ih (encodeStep w h "" x), encodeStep_acc,
      String.append_assoc]

theorem joinSep_cons (s a : String) {l : List String} (hl : l ≠ []) :
    joinSep s (a :: l) = a ++ s ++ joinSep s l := by
  cases l with
  | nil => exact absurd rfl hl
  | cons b bs => rfl

theorem convert_eq_joinSep (dets : List Detection) (w h : ℤ) :
    convert_result_to_str dets w h =
      joinSep ";" ((dets.map (fun d => encodeDetection d.box w h)).reverse) := by
  induction dets using List.reverseRecOn with
  | nil => rfl
  | append_singleton ds d ih =>
    simp only [convert_result_to_str] at ih ⊢
    rw [List.enum_append, List.reverse_append]
    simp only [List.enumFrom, List.reverse_cons, List.reverse_nil, List.nil_append,
      List.singleton_append, List.foldl_cons]
    rw [foldl_encodeStep, ih]
    cases ds with
    | nil =>
      simp [encodeStep, String.empty_append, String.append_empty, joinSep]
    | cons e es =>
      rw [List.map_append, List.reverse_append]
      simp only [List.map_cons, List.map_nil, List.reverse_cons, List.reverse_nil,
        List.nil_append, List.singleton_append]
      have hne : (List.map (fun d => encodeDetection d.box w h) es).reverse ++
          [encodeDetection e.box w h] ≠ [] := by simp
      rw [joinSep_cons _ _ hne]
      simp only [encodeStep, List.length_cons, String.empty_append]
      rw [if_pos (Nat.succ_pos es.length), String.append_assoc]

/-! ### Rounding lemmas -/

theorem ratFloor_eq (x : ℚ) : x.floor = ⌊x⌋ :=
  (Rat.floor_def' x).trans Rat.floor_def.symm

theorem npRound_eq_or (x : ℚ) : npRound x = ⌊x⌋ ∨ npRound x = ⌊x⌋ + 1 := by
  simp only [npRound, ratFloor_eq]
  split
  · exact Or.inl rfl
  · split
    · exact Or.inr rfl
    · split
      · exact Or.inl rfl
      · exact Or.inr rfl

theorem floor_le_npRound (x : ℚ) : ⌊x⌋ ≤ npRound x := by
  rcases npRound_eq_or x with h | h <;> omega

theorem r2_cast (x : ℚ) :
    ((2 * (x.num - x.floor * (x.den : ℤ)) : ℤ) : ℚ) = 2 * (x - ⌊x⌋) * (x.den : ℚ) := by
  have hd : (x.den : ℚ) ≠ 0 := Nat.cast_ne_zero.mpr x.den_ne_zero
  have hnum : (x.num : ℚ) = x * (x.den : ℚ) := (div_eq_iff hd).mp (Rat.num_div_den x)
  push_cast [ratFloor_eq]
  rw [hnum]
  ring

theorem npRound_nearest (x : ℚ) : |x - (npRound x : ℚ)| ≤ 1 / 2 := by
  have hfl : ((⌊x⌋ : ℤ) : ℚ) ≤ x := Int.floor_le x
  have hfu : x < (⌊x⌋ : ℚ) + 1 := Int.lt_floor_add_one x
  have hd : (0 : ℚ) < (x.den : ℚ) := by exact_mod_cast x.den_pos
  simp only [npRound, ratFloor_eq]
  split
  · next hlt =>
    have h2 : ((2 * (x.num - x.floor * (x.den : ℤ)) : ℤ) : ℚ) < (x.den : ℚ) := by
      exact_mod_cast hlt
    rw [r2_cast] at h2
    have h2b : 2 * (x - (⌊x⌋ : ℚ)) * (x.den : ℚ) < 1 * (x.den : ℚ) := by
      rw [one_mul]; exact h2
    have hfr : 2 * (x - (⌊x⌋ : ℚ)) < 1 := (mul_lt_mul_right hd).mp h2b
    rw [abs_le]
    constructor <;> linarith
  · next hge =>
    split
    · next hgt =>
      have h2 : (x.den : ℚ) < ((2 * (x.num - x.floor * (x.den : ℤ)) : ℤ) : ℚ) := by
        exact_mod_cast hgt
      rw [r2_cast] at h2
      have h2b : 1 * (x.den : ℚ) < 2 * (x - (⌊x⌋ : ℚ)) * (x.den : ℚ) := by
        rw [one_mul]; exact h2
      have hfr : 1 < 2 * (x - (⌊x⌋ : ℚ)) := (mul_lt_mul_right hd).mp h2b
      rw [abs_le]
      push_cast
      constructor <;> linarith
    · next hle =>
      have heq : ((2 * (x.num - x.floor * (x.den : ℤ)) : ℤ) : ℚ) = (x.den : ℚ) := by
        exact_mod_cast le_antisymm (not_lt.mp hle) (not_lt.mp hge)
      rw [r2_cast] at heq
      have h1d : 2 * (x - (⌊x⌋ : ℚ)) * (x.den : ℚ) = 1 * (x.den : ℚ) := by
        rw [one_mul]; exact heq
      have hfr : 2 * (x - (⌊x⌋ : ℚ)) = 1 := mul_right_cancel₀ (ne_of_gt hd) h1d
      split
      · rw [abs_le]
        constructor <;> linarith
      · rw [abs_le]
        push_cast
        constructor <;> linarith

theorem npRound_intCast (n : ℤ) : npRound ((n : ℤ) : ℚ) = n := by
  have h1 : ((n : ℤ) : ℚ).num = n := Rat.num_intCast n
  have h2 : ((n : ℤ) : ℚ).den = 1 := Rat.den_intCast n
  have h3 : ((n : ℤ) : ℚ).floor = n := by
    rw [ratFloor_eq, Int.floor_intCast]
  simp [npRound, h1, h2, h3]

/-! ### Batch Runner lemmas -/

theorem detect_loop_acc (root : String) (es : List Entry)
    (acc : List (String × String)) (log : List String) :
    detect_loop root es acc log =
      (acc ++ (detect_loop root es [] []).1,
       log ++ (detect_loop root es [] []).2.1,
       (detect_loop root es [] []).2.2) := by
  induction es generalizing acc log with
  | nil => simp [detect_loop]
  | cons e rest ih =>
    cases e with
    | dir name =>
      simp only [detect_loop]
      exact ih acc log
    | corrupt name =>
      simp only [detect_loop, List.nil_append]
      rw [ih acc (log ++ ["Open Error! Try again! " ++ path_join root name]),
        ih [] ["Open Error! Try again! " ++ path_join root name]]
      simp [List.append_assoc]
    | image name res =>
      cases res with
      | error msg => simp [detect_loop]
      | ok out =>
        simp only [detect_loop, List.nil_append]
        rw [ih (acc ++ [(name, out)]) log, ih [(name, out)] []]
        simp [List.append_assoc]

theorem detect_loop_append_ok (root : String) {es : List Entry} (fs : List Entry)
    (h : (detect_loop root es [] []).2.2 = none) :
    detect_loop root (es ++ fs) [] [] =
      ((detect_loop root es [] []).1 ++ (detect_loop root fs [] []).1,
       (detect_loop root es [] []).2.1 ++ (detect_loop root fs [] []).2.1,
       (detect_loop root fs [] []).2.2) := by
  induction es with
  | nil => simp [detect_loop]
  | cons e rest ih =>
    cases e with
    | dir name =>
      simp only [List.cons_append, detect_loop] at h ⊢
      exact ih h
    | corrupt name =>
      simp only [List.cons_append, detect_loop, List.nil_append, List.append_eq] at h ⊢
      have h2 : (detect_loop root rest [] []).2.2 = none := by
        rw [detect_loop_acc root rest []
          ["Open Error! Try again! " ++ path_join root name]] at h
        exact h
      rw [detect_loop_acc root (rest ++ fs) []
          ["Open Error! Try again! " ++ path_join root name],
        detect_loop_acc root rest []
          ["Open Error! Try again! " ++ path_join root name],
        ih h2]
      simp [List.append_assoc]
    | image name res =>
      cases res with
      | error msg => simp [detect_loop] at h
      | ok out =>
        simp only [List.cons_append, detect_loop, List.nil_append, List.append_eq] at h ⊢
        have h2 : (detect_loop root rest [] []).2.2 = none := by
          rw [detect_loop_acc root rest [(name, out)] []] at h
          exact h
        rw [detect_loop_acc root (rest ++ fs) [(name, out)] [],
          detect_loop_acc root rest [(name, out)] [], ih h2]
        simp [List.append_assoc]

theorem detect_loop_append_abort (root : String) {es : List Entry} (fs : List Entry)
    (h : (detect_loop root es [] []).2.2 ≠ none) :
    detect_loop root (es ++ fs) [] [] = detect_loop root es [] [] := by
  induction es with
  | nil => simp [detect_loop] at h
  | cons e rest ih =>
    cases e with
    | dir name =>
      simp only [List.cons_append, detect_loop] at h ⊢
      exact ih h
    | corrupt name =>
      simp only [List.cons_append, detect_loop, List.nil_append, List.append_eq] at h ⊢
      have h2 : (detect_loop root rest [] []).2.2 ≠ none := by
        rw [detect_loop_acc root rest []
          ["Open Error! Try again! " ++ path_join root name]] at h
        exact h
      rw [detect_loop_acc root (rest ++ fs) []
          ["Open Error! Try again! " ++ path_join root name],
        detect_loop_acc root rest []
          ["Open Error! Try again! " ++ path_join root name],
        ih h2]
    | image name res =>
      cases res with
      | error msg => simp [detect_loop]
      | ok out =>
        simp only [List.cons_append, detect_loop, List.nil_append, List.append_eq] at h ⊢
        have h2 : (detect_loop root rest [] []).2.2 ≠ none := by
          rw [detect_loop_acc root rest [(name, out)] []] at h
          exact h
        rw [detect_loop_acc root (rest ++ fs) [(name, out)] [],
          detect_loop_acc root rest [(name, out)] [], ih h2]

theorem detect_img_table (root : String) (L : List Entry) :
    (detect_img root L).table = (detect_loop root L [] []).1 := by
  simp only [detect_img]
  split <;> rfl

theorem detect_img_log (root : String) (L : List Entry) :
    (detect_img root L).log = (detect_loop root L [] []).2.1 := by
  simp only [detect_img]
  split <;> rfl

theorem detect_img_aborted (root : String) (L : List Entry) :
    (detect_img root L).aborted = (detect_loop root L [] []).2.2 := by
  simp only [detect_img]
  split
  · next msg heq => simp [heq]
  · next heq => simp [heq]

theorem detect_img_closed_iff (root : String) (L : List Entry) :
    ((detect_img root L).sessionClosed = true ↔ (detect_img root L).aborted = none) ∧
    ((detect_img root L).csvWritten = true ↔ (detect_img root L).aborted = none) := by
  simp only [detect_img]
  split <;> simp

/-! ### Anchor reshaping lemma -/

theorem reshapePairs_spec : ∀ vals : List ℚ,
    (vals.length % 2 = 0 →
      ∃ ps, reshapePairs vals = some ps ∧ ps.length = vals.length / 2 ∧
        (ps.map (fun p => [p.1, p.2])).flatten = vals) ∧
    (vals.length % 2 = 1 → reshapePairs vals = none)
  | [] => by
    constructor
    · intro _
      exact ⟨[], rfl, rfl, rfl⟩
    · intro hodd
      simp at hodd
  | [a] => by
    constructor
    · intro heven
      simp at heven
    · intro _
      rfl
  | a :: b :: rest => by
    obtain ⟨he, ho⟩ := reshapePairs_spec rest
    constructor
    · intro heven
      have hr : rest.length % 2 = 0 := by
        simp only [List.length_cons] at heven
        omega
      obtain ⟨ps, h1, h2, h3⟩ := he hr
      refine ⟨(a, b) :: ps, ?_, ?_, ?_⟩
      · simp [reshapePairs, h1]
      · simp only [List.length_cons, h2]
        omega
      · simp [h3]
    · intro hodd
      have hr : rest.length % 2 = 1 := by
        simp only [List.length_cons] at hodd
        omega
      have hn := ho hr
      simp [reshapePairs, hn]

/-! ### Claims -/

/-- Claim C1: for every list of detections, `encode` serializes each
detection as the four fields left, top, width, height joined by
underscore, joins the per-detection strings with a semicolon, and
returns the empty string when there are zero detections; in particular
one detection with box (top=10, left=5, bottom=50, right=45) on a
100x100 image encodes as "5_10_40_40". -/
theorem C1_encode_serializes :
    (∀ (w h : ℤ), convert_result_to_str [] w h = "") ∧
    (∀ (d : Detection) (w h : ℤ), convert_result_to_str [d] w h =
      toString (max 0 (npRound d.box.left)) ++ "_" ++
      toString (max 0 (npRound d.box.top)) ++ "_" ++
      toString (min w (npRound d.box.right) - max 0 (npRound d.box.left)) ++ "_" ++
      toString (min h (npRound d.box.bottom) - max 0 (npRound d.box.top))) ∧
    (∀ (dets : List Detection) (w h : ℤ), convert_result_to_str dets w h =
      joinSep ";" ((dets.map (fun d => encodeDetection d.box w h)).reverse)) ∧
    convert_result_to_str [⟨⟨10, 5, 50, 45⟩, 1, 0⟩] 100 100 = "5_10_40_40" := by
  refine ⟨fun w h => rfl, fun d w h => rfl, convert_eq_joinSep, by decide⟩

/-- Claim C2, counterexample: on the classes-file content `"a\n\nb\n"`
the code keeps the blank line as an empty entry, so `_get_class` does
not return one entry per non-empty trimmed line. -/
theorem C2_counterexample :
    _get_class "a\n\nb\n" = ["a", "", "b"] ∧
    ((readlines "a\n\nb\n").map pyStrip).filter (fun c => !(c == "")) = ["a", "b"] ∧
    _get_class "a\n\nb\n" ≠
      ((readlines "a\n\nb\n").map pyStrip).filter (fun c => !(c == "")) := by
  refine ⟨by decide, by decide, by decide⟩

/-- Claim C2, amended: for every classes-file content, `_get_class`
returns exactly one entry per line of the file — the line stripped of
surrounding whitespace — preserving file order and retaining
duplicates; blank lines are kept as empty-string entries, not
dropped. -/
theorem C2_one_entry_per_line :
    ∀ content : String,
      (_get_class content).length = (readlines content).length ∧
      ∀ i, i < (readlines content).length →
        (_get_class content).getD i "" = pyStrip ((readlines content).getD i "") := by
  intro content
  constructor
  · simp [_get_class]
  · intro i hi
    simp only [_get_class]
    rw [List.getD_eq_getElem?_getD, List.getElem?_map, List.getD_eq_getElem?_getD,
      List.getElem?_eq_getElem hi]
    rfl

theorem C2_one_entry_per_line_witness :
    (_get_class "cat\ncat\n").length = (readlines "cat\ncat\n").length ∧
    (_get_class "cat\ncat\n").getD 1 "" = pyStrip ((readlines "cat\ncat\n").getD 1 "") :=
  ⟨(C2_one_entry_per_line "cat\ncat\n").1,
   (C2_one_entry_per_line "cat\ncat\n").2 1 (by decide)⟩

/-- Claim C3: for every list of detections, `encode` emits the
per-detection encodings in reverse of the order the Detector returned
them (index descending from last to first); in particular detections
`[A, B]` encode as `B-encoding ++ ";" ++ A-encoding`. -/
theorem C3_reverse_order :
    (∀ (dets : List Detection) (w h : ℤ), convert_result_to_str dets w h =
      joinSep ";" (((dets.map (fun d => encodeDetection d.box w h)).reverse))) ∧
    (∀ (A B : Detection) (w h : ℤ), convert_result_to_str [A, B] w h =
      encodeDetection B.box w h ++ ";" ++ encodeDetection A.box w h) := by
  refine ⟨convert_eq_joinSep, fun A B w h => ?_⟩
  rw [convert_eq_joinSep]
  rfl

/-- Claim C4: the encoder rounds each coordinate to a nearest integer
(`np.round`, distance at most 1/2) and then clamps: top/left to at
least 0, bottom/right to at most the image height/width, leaving
in-range rounded values unchanged; in particular `left = -3` clamps to
0 and a right coordinate exceeding the image width clamps to the
width. -/
theorem C4_round_then_clamp :
    ∀ (b : Box) (w h : ℤ),
      (|b.top - (npRound b.top : ℚ)| ≤ 1 / 2 ∧ |b.left - (npRound b.left : ℚ)| ≤ 1 / 2 ∧
        |b.bottom - (npRound b.bottom : ℚ)| ≤ 1 / 2 ∧
        |b.right - (npRound b.right : ℚ)| ≤ 1 / 2) ∧
      (0 ≤ (clampBox b w h).1 ∧ 0 ≤ (clampBox b w h).2.1 ∧
        (clampBox b w h).2.2.1 ≤ h ∧ (clampBox b w h).2.2.2 ≤ w) ∧
      ((0 ≤ npRound b.top → (clampBox b w h).1 = npRound b.top) ∧
        (0 ≤ npRound b.left → (clampBox b w h).2.1 = npRound b.left) ∧
        (npRound b.bottom ≤ h → (clampBox b w h).2.2.1 = npRound b.bottom) ∧
        (npRound b.right ≤ w → (clampBox b w h).2.2.2 = npRound b.right)) ∧
      (b.left = -3 → (clampBox b w h).2.1 = 0) ∧
      ((w : ℚ) < b.right → (clampBox b w h).2.2.2 = w) := by
  intro b w h
  refine ⟨⟨npRound_nearest _, npRound_nearest _, npRound_nearest _, npRound_nearest _⟩,
    ⟨le_max_left _ _, le_max_left _ _, min_le_left _ _, min_le_left _ _⟩,
    ⟨fun h1 => max_eq_right h1, fun h1 => max_eq_right h1,
      fun h1 => min_eq_right h1, fun h1 => min_eq_right h1⟩, ?_, ?_⟩
  · intro hl
    have hleft : npRound b.left = -3 := by
      rw [hl]
      simpa using npRound_intCast (-3)
    simp only [clampBox, hleft]
    decide
  · intro hr
    have hle : w ≤ ⌊b.right⌋ := Int.le_floor.mpr (le_of_lt hr)
    have hnp : w ≤ npRound b.right := le_trans hle (floor_le_npRound _)
    simp only [clampBox]
    exact min_eq_left hnp

theorem C4_round_then_clamp_witness :
    (clampBox ⟨1, -3, 2, 1000⟩ 100 100).2.1 = 0 ∧
    (clampBox ⟨1, -3, 2, 1000⟩ 100 100).2.2.2 = 100 :=
  ⟨(C4_round_then_clamp ⟨1, -3, 2, 1000⟩ 100 100).2.2.2.1 rfl,
   (C4_round_then_clamp ⟨1, -3, 2, 1000⟩ 100 100).2.2.2.2 (by decide)⟩

/-- Claim C5: for every anchors line whose comma-separated tokens all
parse as numbers, an even token count yields one (width, height) pair
per two numbers, in file order; an odd count fails, as does any
non-numeric token (the script raises `ValueError`, the spec's
`ConfigError`). -/
theorem C5_anchors_shape :
    ∀ (line : String),
      (∀ vals : List ℚ, parseAll (pySplitComma line) = some vals →
        (vals.length % 2 = 0 →
          ∃ ps, _get_anchors line = some ps ∧ ps.length = vals.length / 2 ∧
            (ps.map (fun p => [p.1, p.2])).flatten = vals) ∧
        (vals.length % 2 = 1 → _get_anchors line = none)) ∧
      (parseAll (pySplitComma line) = none → _get_anchors line = none) := by
  intro line
  constructor
  · intro vals hv
    have hget : _get_anchors line = reshapePairs vals := by
      simp [_get_anchors, hv]
    constructor
    · intro he
      obtain ⟨ps, h1, h2, h3⟩ := (reshapePairs_spec vals).1 he
      exact ⟨ps, hget.trans h1, h2, h3⟩
    · intro ho
      rw [hget]
      exact (reshapePairs_spec vals).2 ho
  · intro hn
    simp [_get_anchors, hn]

theorem C5_anchors_shape_witness :
    ∃ ps, _get_anchors "10,13, 16,30" = some ps ∧
      ps.length = [(10 : ℚ), 13, 16, 30].length / 2 ∧
      (ps.map (fun p => [p.1, p.2])).flatten = [(10 : ℚ), 13, 16, 30] :=
  (((C5_anchors_shape "10,13, 16,30").1 [10, 13, 16, 30] (by decide)).1 (by decide))

/-- Claim C6: when the direct model load fails, the fallback selects the
lightweight tiny architecture (with `num_anchors // 2` anchors per
head) exactly when the anchor count is 6, and otherwise the full
architecture (with `num_anchors // 3` anchors per head). -/
theorem C6_tiny_iff_six :
    ∀ (path : String) (na nc : ℕ), pyEndsWith path ".h5" = true →
      (generate path false na nc = Except.ok (YoloModel.tiny (na / 2) nc) ↔ na = 6) ∧
      (na ≠ 6 → generate path false na nc = Except.ok (YoloModel.full (na / 3) nc)) := by
  intro path na nc hp
  constructor
  · constructor
    · intro hgen
      by_contra hne
      simp [generate, hp, hne] at hgen
    · intro h6
      simp [generate, hp, h6]
  · intro hne
    simp [generate, hp, hne]

theorem C6_tiny_iff_six_witness :
    generate "model_data/yolo.h5" false 6 80 = Except.ok (YoloModel.tiny 3 80) ∧
    generate "model_data/yolo.h5" false 9 80 = Except.ok (YoloModel.full 3 80) :=
  ⟨((C6_tiny_iff_six "model_data/yolo.h5" 6 80 (by decide)).1).mpr rfl,
   ((C6_tiny_iff_six "model_data/yolo.h5" 9 80 (by decide)).2) (by decide)⟩

/-- Claim C7: a file that fails to open as an image is skipped after
printing the retry-hint message and contributes no record at all while
the run continues, and a directory with one corrupt file and two valid
images yields a table of exactly 2 rows. -/
theorem C7_corrupt_skipped :
    ∀ (root : String) (pre post : List Entry) (name : String),
      ((detect_img root (pre ++ Entry.corrupt name :: post)).table =
          (detect_img root (pre ++ post)).table ∧
        (detect_img root (pre ++ Entry.corrupt name :: post)).aborted =
          (detect_img root (pre ++ post)).aborted) ∧
      ((detect_loop root pre [] []).2.2 = none →
        ("Open Error! Try again! " ++ path_join root name) ∈
          (detect_img root (pre ++ Entry.corrupt name :: post)).log) ∧
      (detect_img root [Entry.corrupt name,
        Entry.image "a.jpg" (Except.ok "1_2_3_4"),
        Entry.image "b.jpg" (Except.ok "")]).table.length = 2 := by
  intro root pre post name
  have hc : detect_loop root (Entry.corrupt name :: post) [] [] =
      ((detect_loop root post [] []).1,
       ["Open Error! Try again! " ++ path_join root name] ++
         (detect_loop root post [] []).2.1,
       (detect_loop root post [] []).2.2) := by
    simp only [detect_loop, List.nil_append]
    rw [detect_loop_acc root post []
      ["Open Error! Try again! " ++ path_join root name]]
    simp
  refine ⟨?_, ?_, rfl⟩
  · by_cases hab : (detect_loop root pre [] []).2.2 = none
    · rw [detect_img_table, detect_img_table, detect_img_aborted, detect_img_aborted,
        detect_loop_append_ok root (Entry.corrupt name :: post) hab,
        detect_loop_append_ok root post hab, hc]
      exact ⟨rfl, rfl⟩
    · rw [detect_img_table, detect_img_table, detect_img_aborted, detect_img_aborted,
        detect_loop_append_abort root (Entry.corrupt name :: post) hab,
        detect_loop_append_abort root post hab]
      exact ⟨rfl, rfl⟩
  · intro hab
    rw [detect_img_log, detect_loop_append_ok root (Entry.corrupt name :: post) hab, hc]
    simp

theorem C7_corrupt_skipped_witness :
    ("Open Error! Try again! " ++ path_join "imgs" "x.bin") ∈
      (detect_img "imgs" ([] ++ Entry.corrupt "x.bin" ::
        [Entry.image "a.jpg" (Except.ok "1_2_3_4")])).log :=
  (C7_corrupt_skipped "imgs" [] [Entry.image "a.jpg" (Except.ok "1_2_3_4")] "x.bin").2.1 rfl

/-- Claim C8: a failure raised inside `detect_image` on a successfully
opened image is not caught and aborts the remaining batch: the run
records the uncaught exception, writes no output file, and never
reaches `close_session`; the resource release and the CSV write happen
exactly when the full pass succeeds. -/
theorem C8_inference_error_aborts :
    (∀ (root : String) (pre : List Entry) (name msg : String) (post : List Entry),
      (detect_loop root pre [] []).2.2 = none →
        (detect_img root (pre ++ Entry.image name (Except.error msg) :: post)).aborted =
          some msg ∧
        (detect_img root (pre ++ Entry.image name (Except.error msg) :: post)).csvWritten =
          false ∧
        (detect_img root (pre ++ Entry.image name (Except.error msg) :: post)).sessionClosed =
          false ∧
        (detect_img root (pre ++ Entry.image name (Except.error msg) :: post)).table =
          (detect_img root pre).table) ∧
    (∀ (root : String) (entries : List Entry),
      ((detect_img root entries).sessionClosed = true ↔
        (detect_img root entries).aborted = none) ∧
      ((detect_img root entries).csvWritten = true ↔
        (detect_img root entries).aborted = none)) := by
  constructor
  · intro root pre name msg post hab
    have hfull : detect_loop root (pre ++ Entry.image name (Except.error msg) :: post) [] [] =
        ((detect_loop root pre [] []).1, (detect_loop root pre [] []).2.1, some msg) := by
      rw [detect_loop_append_ok root (Entry.image name (Except.error msg) :: post) hab]
      simp [detect_loop]
    have habort : (detect_img root (pre ++ Entry.image name (Except.error msg) :: post)).aborted =
        some msg := by
      rw [detect_img_aborted, hfull]
    refine ⟨habort, ?_, ?_, ?_⟩
    · simp only [detect_img, hfull]
    · simp only [detect_img, hfull]
    · rw [detect_img_table, detect_img_table, hfull]
  · intro root entries
    exact detect_img_closed_iff root entries

theorem C8_inference_error_aborts_witness :
    (detect_img "imgs" ([Entry.image "a.jpg" (Except.ok "1_2_3_4")] ++
        Entry.image "b.jpg" (Except.error "boom") ::
        [Entry.image "c.jpg" (Except.ok "5")])).aborted = some "boom" ∧
    (detect_img "imgs" ([Entry.image "a.jpg" (Except.ok "1_2_3_4")] ++
        Entry.image "b.jpg" (Except.error "boom") ::
        [Entry.image "c.jpg" (Except.ok "5")])).csvWritten = false ∧
    (detect_img "imgs" ([Entry.image "a.jpg" (Except.ok "1_2_3_4")] ++
        Entry.image "b.jpg" (Except.error "boom") ::
        [Entry.image "c.jpg" (Except.ok "5")])).sessionClosed = false ∧
    (detect_img "imgs" ([Entry.image "a.jpg" (Except.ok "1_2_3_4")] ++
        Entry.image "b.jpg" (Except.error "boom") ::
        [Entry.image "c.jpg" (Except.ok "5")])).table =
      (detect_img "imgs" [Entry.image "a.jpg" (Except.ok "1_2_3_4")]).table :=
  C8_inference_error_aborts.1 "imgs" [Entry.image "a.jpg" (Except.ok "1_2_3_4")]
    "b.jpg" "boom" [Entry.image "c.jpg" (Except.ok "5")] rfl

/-- Claim C9: with a fixed configured input size, preprocessing succeeds
exactly when both dimensions are multiples of 32 (failing fast
otherwise); with no fixed size, the target is each image dimension
floored down to the nearest multiple of 32. -/
theorem C9_preprocess_multiple_of_32 :
    ∀ (ph pw imgw imgh : ℕ),
      ((∃ t, detect_preprocess (some (ph, pw)) imgw imgh = Except.ok t) ↔
        (ph % 32 = 0 ∧ pw % 32 = 0)) ∧
      (ph % 32 = 0 → pw % 32 = 0 →
        detect_preprocess (some (ph, pw)) imgw imgh = Except.ok (pw, ph)) ∧
      (¬(ph % 32 = 0 ∧ pw % 32 = 0) →
        detect_preprocess (some (ph, pw)) imgw imgh =
          Except.error "Multiples of 32 required") ∧
      (detect_preprocess none imgw imgh =
          Except.ok (32 * (imgw / 32), 32 * (imgh / 32)) ∧
        32 * (imgw / 32) ≤ imgw ∧ imgw < 32 * (imgw / 32) + 32 ∧
        32 * (imgh / 32) ≤ imgh ∧ imgh < 32 * (imgh / 32) + 32) := by
  intro ph pw imgw imgh
  refine ⟨?_, ?_, ?_, ?_⟩
  · constructor
    · intro ⟨t, ht⟩
      by_cases h1 : ph % 32 = 0 <;> by_cases h2 : pw % 32 = 0 <;>
        simp [detect_preprocess, h1, h2] at ht ⊢
    · intro ⟨h1, h2⟩
      exact ⟨(pw, ph), by simp [detect_preprocess, h1, h2]⟩
  · intro h1 h2
    simp [detect_preprocess, h1, h2]
  · intro hno
    by_cases h1 : ph % 32 = 0 <;> by_cases h2 : pw % 32 = 0 <;>
      simp [detect_preprocess, h1, h2] at hno ⊢
  · refine ⟨?_, ?_, ?_, ?_, ?_⟩
    · have e1 : imgw - imgw % 32 = 32 * (imgw / 32) := by omega
      have e2 : imgh - imgh % 32 = 32 * (imgh / 32) := by omega
      simp [detect_preprocess, e1, e2]
    · omega
    · omega
    · omega
    · omega

theorem C9_preprocess_multiple_of_32_witness :
    detect_preprocess (some (416, 416)) 500 375 = Except.ok (416, 416) :=
  (C9_preprocess_multiple_of_32 416 416 500 375).2.1 (by decide) (by decide)

/-- Claim C10: for every model path not ending in ".h5", `generate`
fails with the assertion error before any load attempt (the outcome is
the same whether or not `load_model` would succeed). -/
theorem C10_h5_assert :
    ∀ (model_path : String) (b : Bool) (na nc : ℕ),
      pyEndsWith model_path ".h5" = false →
        generate model_path b na nc =
          Except.error "Keras model or weights must be a .h5 file." := by
  intro p b na nc hp
  simp [generate, hp]

theorem C10_h5_assert_witness :
    generate "model_data/yolo_weights" true 6 80 =
      Except.error "Keras model or weights must be a .h5 file." :=
  C10_h5_assert "model_data/yolo_weights" true 6 80 (by decide)

end EhualuYolo
